import Mathlib

/-!
Verification development for the Democracy Analyzer core
(indicator scorer, sentence labeler, vectorizer, classifier).

Texts are modelled as lists of characters (the ASCII fragment of
JavaScript strings; all keyword and lexicon data is ASCII).
JavaScript numbers appearing in scores and sentiment values are
modelled as rationals; floating-point rounding at the exact sentiment
threshold is outside the model.
-/

namespace DemocracyAnalyzer

set_option maxRecDepth 1000000

abbrev Text := List Char

/-- ASCII lower-casing of one character, the behaviour of
String.prototype.toLowerCase on the ASCII range. -/
def toLowerChar (c : Char) : Char :=
  if 'A' ≤ c ∧ c ≤ 'Z' then Char.ofNat (c.toNat + 32) else c

/-- Lower-case an entire text. -/
def lowerStr (t : Text) : Text := t.map toLowerChar

/-- JavaScript regex word character: letters, digits, underscore. -/
def isWordChar (c : Char) : Bool :=
  ('a' ≤ c && c ≤ 'z') || ('A' ≤ c && c ≤ 'Z') || ('0' ≤ c && c ≤ '9') || c == '_'

/-- JavaScript whitespace (ASCII fragment of the regex class for spaces). -/
def isSpaceCharJs (c : Char) : Bool :=
  c == ' ' || c == '\t' || c == '\n' || c == '\r' || c == '\x0b' || c == '\x0c'

/-- String.prototype.trim: strip leading and trailing whitespace. -/
def jsTrim (t : Text) : Text :=
  ((t.dropWhile isSpaceCharJs).reverse.dropWhile isSpaceCharJs).reverse

/-- Split a list at every element satisfying the predicate, keeping the
(possibly empty) segments between separators.  A run of k separators
yields k-1 empty inner segments, which every consumer below discards
(they are never lexicon members and never pass the length filters), so
this is observationally the same as the regex splits of the source that
collapse separator runs. -/
def splitOnPred (p : Char → Bool) (t : Text) : List Text :=
  t.foldr (fun c acc =>
    if p c then [] :: acc
    else match acc with
      | [] => [[c]]
      | a :: as => (c :: a) :: as) [[]]

/-- String.prototype.includes: contiguous substring containment. -/
def containsSub (s sub : Text) : Bool :=
  (List.range (s.length + 1)).any (fun i => ((s.drop i).take sub.length) == sub)

/- ===== indicators.ts ===== -/

/-- The static Indicator record: id, name, description, keyword list. -/
structure Indicator where
  id : ℕ
  name : String
  description : String
  keywords : List String
deriving DecidableEq

def blankIndicator : Indicator := ⟨0, "", "", []⟩

/-- The four key indicators of authoritarianism, transcribed from the
INDICATORS constant of the source. -/
def INDICATORS : List Indicator := [
  { id := 1,
    name := "Rejection of democratic rules",
    description := "Rejection or weak commitment to democratic rules of the game, such as refusing to accept election results, suggesting the need to suspend the constitution, or advocating extraconstitutional measures.",
    keywords := [
      "constitution", "election", "suspend", "reject", "rules", "democracy", "coup", "overthrow",
      "military", "extraconstitutional", "martial law", "emergency powers", "override", "ignore results",
      "rigged election", "stolen election", "illegal votes", "constitutional crisis", "refuse to concede",
      "refuse to accept", "delay election", "postpone election", "cancel election", "nullify"
    ] },
  { id := 2,
    name := "Denial of legitimacy of opponents",
    description := "Denying the legitimacy of political opponents, describing them as subversive, criminal, or foreign agents who pose an existential threat.",
    keywords := [
      "enemy", "traitor", "criminal", "subversive", "illegitimate", "threat", "foreign", "agent",
      "spy", "terrorist", "corrupt", "radical", "extremist", "dangerous", "un-American", "unpatriotic",
      "treasonous", "sedition", "conspiracy", "deep state", "puppet", "controlled by", "infiltrated",
      "fifth column", "disloyal", "enemy of the people", "enemy of the state", "lock them up"
    ] },
  { id := 3,
    name := "Toleration of violence",
    description := "Tolerating or encouraging violence, or showing a willingness to curtail civil liberties of opponents, including media.",
    keywords := [
      "violence", "force", "attack", "suppress", "silence", "censor", "media", "journalist", "protest",
      "civil liberties", "rights", "crackdown", "crush", "destroy", "eliminate", "rough up", "beat",
      "fight back", "take them out", "punch", "second amendment", "armed", "militia", "mob", "riot",
      "storm", "take by force", "blood", "sacrifice", "battle", "war", "combat", "struggle"
    ] },
  { id := 4,
    name := "Readiness to curtail civil liberties",
    description := "Readiness to curtail civil liberties of opponents, including media freedom, or showing support for measures that would restrict rights.",
    keywords := [
      "restrict", "limit", "curtail", "freedom", "liberty", "rights", "press", "speech", "assembly",
      "opposition", "dissent", "ban", "shut down", "close", "censor", "silence", "gag", "muzzle",
      "fake news", "enemy of the people", "libel laws", "defamation", "national security", "surveillance",
      "monitor", "track", "investigate", "detain", "arrest", "imprison", "deport", "expel"
    ] }
]

/- ===== nlp.ts ===== -/

/-- Fixed positive lexicon of the sentiment estimator. -/
def positiveWords : List String :=
  ["good", "great", "excellent", "positive", "wonderful", "best", "love", "happy", "right", "free"]

/-- Fixed negative lexicon of the sentiment estimator. -/
def negativeWords : List String :=
  ["bad", "terrible", "awful", "negative", "worst", "hate", "sad", "wrong", "evil", "corrupt"]

/-- analyzeSentiment: lower-case, split on non-word characters, add one
tenth for every positive-lexicon token, subtract one tenth for every
negative-lexicon token, clamp to the interval from -1 to 1. -/
def analyzeSentiment (t : Text) : ℚ :=
  let words := splitOnPred (fun c => !isWordChar c) (lowerStr t)
  let score := words.foldl (fun s w =>
    let s1 := if positiveWords.any (fun p => p.data == w) then s + 0.1 else s
    if negativeWords.any (fun n => n.data == w) then s1 - 0.1 else s1) 0
  max (-1) (min 1 score)

/-- Keywords of an indicator pre-lowercased, as done once by
prepareKeywords in the source. -/
structure ProcessedIndicator where
  base : Indicator
  processedKeywords : List Text
deriving DecidableEq

def blankPI : ProcessedIndicator := ⟨blankIndicator, []⟩

def processedIndicators : List ProcessedIndicator :=
  INDICATORS.map (fun ind => ⟨ind, ind.keywords.map (fun k => lowerStr k.data)⟩)

/-- Whether the character position i of t holds a word character. -/
def wordCharAt (t : Text) (i : ℕ) : Bool :=
  ((t.get? i).map isWordChar).getD false

/-- Regex word boundary between positions p-1 and p of t: exactly one
side is a word character (positions outside the text count as
non-word). -/
def boundaryAt (t : Text) (p : ℕ) : Bool :=
  (if p = 0 then false else wordCharAt t (p - 1)) != wordCharAt t p

/-- A case-insensitive, word-boundary-anchored occurrence of the
(lower-case) keyword kw at index i of t. -/
def matchAt (t kw : Text) (i : ℕ) : Bool :=
  boundaryAt t i && boundaryAt t (i + kw.length) &&
    lowerStr ((t.drop i).take kw.length) == kw

/-- Leftmost match index at or after position p, as regex exec resumes
from lastIndex. -/
def findMatchFrom (t kw : Text) (p : ℕ) : Option ℕ :=
  ((List.range (t.length + 1)).filter (fun i => decide (p ≤ i) && matchAt t kw i)).head?

/-- Global regex scan: repeatedly take the leftmost match and resume
after its end.  The fuel bound exceeds the possible number of matches
of a non-empty keyword, so the scan always runs to completion. -/
def scanGo (t kw : Text) : ℕ → ℕ → List ℕ
  | 0, _ => []
  | fuel + 1, p =>
    match findMatchFrom t kw p with
    | none => []
    | some i => i :: scanGo t kw fuel (i + kw.length)

def scanMatches (t kw : Text) : List ℕ := scanGo t kw (t.length + 1) 0

/-- The matched substrings, in original case, as returned by
String.prototype.match with the global flag. -/
def keywordMatches (t kw : Text) : List Text :=
  (scanMatches t kw).map (fun i => (t.drop i).take kw.length)

structure MatchDetail where
  original : Text
  context : Text
deriving DecidableEq

/-- One context record per occurrence: the matched substring together
with up to 30 characters of surrounding context on each side, clipped
at the text boundaries.  Natural subtraction realises the clip at the
left boundary. -/
def keywordDetails (t kw : Text) : List MatchDetail :=
  (scanMatches t kw).map (fun i =>
    let s := i - 30
    let e := min t.length (i + kw.length + 30)
    ⟨(t.drop i).take kw.length, (t.drop s).take (e - s)⟩)

/-- All matched substrings of an indicator, keyword by keyword in
declaration order (keywords without occurrences contribute nothing). -/
def collectMatches (pi : ProcessedIndicator) (t : Text) : List Text :=
  (pi.processedKeywords.map (fun kw => keywordMatches t kw)).flatten

def collectDetails (pi : ProcessedIndicator) (t : Text) : List MatchDetail :=
  (pi.processedKeywords.map (fun kw => keywordDetails t kw)).flatten

/-- Deduplication keeping the first occurrence of each element: the
behaviour of building a JavaScript Set from an array, and of the
filter/findIndex idiom used for matchDetails. -/
def dedupFirstAux {α : Type} [DecidableEq α] (seen : List α) : List α → List α
  | [] => []
  | a :: l => if a ∈ seen then dedupFirstAux seen l else a :: dedupFirstAux (a :: seen) l

def dedupFirst {α : Type} [DecidableEq α] (l : List α) : List α := dedupFirstAux [] l

structure AnalysisResult where
  indicator : ProcessedIndicator
  score : ℕ
  «matches» : List Text
  matchDetails : List MatchDetail
deriving DecidableEq

/-- The scoring formula of the scorer, as a function of the number of
deduplicated matches and of the sentiment of the whole text: twice the
match count clamped to 10, plus a clamped boost of 1 when there is a
match and the sentiment is strictly below -0.2. -/
def scoreFormula (n : ℕ) (sent : ℚ) : ℕ :=
  let score0 := min 10 (n * 2)
  if 0 < n ∧ sent < -0.2 then min 10 (score0 + 1) else score0

/-- Modelled from the spec words, for comparison with the source: the
number of case-insensitively distinct strings in a match list (the
source instead deduplicates by exact string equality). -/
def ciDistinctCount (ms : List Text) : ℕ := (dedupFirst (ms.map lowerStr)).length

def defaultResult : AnalysisResult := ⟨blankPI, 0, [], []⟩

/-- The per-indicator body of analyzeText: collect matches and match
details, deduplicate, and score from the number of deduplicated
matches with a sentiment boost. -/
def analyzeIndicator (t : Text) (pi : ProcessedIndicator) : AnalysisResult :=
  let uniqueMatches := dedupFirst (collectMatches pi t)
  let score0 := min 10 (uniqueMatches.length * 2)
  let score := if 0 < uniqueMatches.length ∧ analyzeSentiment t < -0.2
    then min 10 (score0 + 1) else score0
  ⟨pi, score, uniqueMatches, dedupFirst (collectDetails pi t)⟩

/-- analyzeText: empty or whitespace-only input short-circuits to the
empty list; otherwise one AnalysisResult per indicator. -/
def analyzeText (t : Text) : List AnalysisResult :=
  if jsTrim t = [] then [] else processedIndicators.map (analyzeIndicator t)

/- ===== pdfExtractor.ts: extractTrainingData ===== -/

/-- A labeled training example.  Labels are JavaScript numbers, hence
rationals: the classifier validation only checks the numeric range. -/
structure TrainingExample where
  text : Text
  label : ℚ
deriving DecidableEq

/-- Sentence terminator characters of the sentence-splitting regex. -/
def isTermChar (c : Char) : Bool := c == '.' || c == '!' || c == '?'

/-- One step of the global sentence regex (one or more non-terminators
followed by one or more terminators): skip leading terminators, take the
non-terminator run and the following terminator run; a trailing fragment
without terminators is dropped.  Fuel exceeds the text length and each
step consumes at least two characters, so the scan runs to completion. -/
def sentencesGo : ℕ → Text → List Text
  | 0, _ => []
  | fuel + 1, t =>
    let t1 := t.dropWhile isTermChar
    let a := t1.takeWhile (fun c => !isTermChar c)
    let r1 := t1.dropWhile (fun c => !isTermChar c)
    let b := r1.takeWhile isTermChar
    let r2 := r1.dropWhile isTermChar
    if a.isEmpty || b.isEmpty then [] else (a ++ b) :: sentencesGo fuel r2

def jsSentences (t : Text) : List Text := sentencesGo (t.length + 1) t

/-- Index of the last occurrence of a character in a list. -/
def lastIdxOf (c : Char) (l : Text) : Option ℕ :=
  match l.reverse.findIdx? (fun x => x == c) with
  | some r => some (l.length - 1 - r)
  | none => none

/-- Leftmost match of the paragraph separator regex (a newline, then
greedy whitespace, then a newline): returns the start index and length
of the separator.  The greedy middle ends at the last newline inside
the maximal whitespace run following the first newline. -/
def findParaSep (t : Text) : Option (ℕ × ℕ) :=
  ((List.range t.length).filterMap (fun i =>
    if (t.getD i ' ') == '\n' then
      match lastIdxOf '\n' ((t.drop (i + 1)).takeWhile isSpaceCharJs) with
      | some j => some (i, j + 2)
      | none => none
    else none)).head?

/-- String.prototype.split on the paragraph separator regex.  Each step
consumes a separator of length at least two, so the fuel suffices. -/
def parasGo : ℕ → Text → List Text
  | 0, t => [t]
  | fuel + 1, t =>
    match findParaSep t with
    | none => [t]
    | some (i, len) => t.take i :: parasGo fuel (t.drop (i + len))

def jsParagraphs (t : Text) : List Text := parasGo (t.length + 1) t

/-- Does the sentence contain some keyword of the indicator as a
case-insensitive substring (looser than the scorer's word-boundary
match)?  Scans the keywords in declaration order, as the inner loop of
extractTrainingData does. -/
def indicatorHit (ind : Indicator) (s : Text) : Bool :=
  ind.keywords.any (fun kw => containsSub (lowerStr s) (lowerStr kw.data))

/-- The indicator loop of extractTrainingData: the first indicator in
the fixed order 1 to 4 with a matching keyword assigns its id and both
loops break; 0 when no indicator matches. -/
def firstIndicatorId (s : Text) : ℕ :=
  match (List.range 4).find? (fun i => indicatorHit (INDICATORS.getD i blankIndicator) s) with
  | some i => i + 1
  | none => 0

/-- The per-sentence loop of extractTrainingData.  The coin stream
models the successive Math.random() < 0.1 draws; k counts the draws
consumed so far (one per retained sentence without any keyword hit). -/
def sentencesStep (coin : ℕ → Bool) : List Text → ℕ → List TrainingExample × ℕ
  | [], k => ([], k)
  | s :: rest, k =>
    if (jsTrim s).length < 20 then sentencesStep coin rest k
    else
      let id := firstIndicatorId s
      if id ≠ 0 then
        let p := sentencesStep coin rest k
        (⟨jsTrim s, (id : ℚ)⟩ :: p.1, p.2)
      else if coin k then
        let p := sentencesStep coin rest (k + 1)
        (⟨jsTrim s, 0⟩ :: p.1, p.2)
      else sentencesStep coin rest (k + 1)

/-- The per-paragraph body of extractTrainingData: only paragraphs
whose trimmed length exceeds 50 are split into sentences and
processed. -/
def processParagraph (coin : ℕ → Bool) (k : ℕ) (p : Text) : List TrainingExample × ℕ :=
  if 50 < (jsTrim p).length then sentencesStep coin (jsSentences p) k
  else ([], k)

/-- extractTrainingData: fails when no text was extracted, otherwise
folds the per-paragraph processing over the paragraph split (the
Supabase persistence branch is disabled, as when Supabase is not
configured). -/
def extractTrainingData (coin : ℕ → Bool) (text : Text) : Except String (List TrainingExample) :=
  if jsTrim text = [] then .error "No text extracted from PDF"
  else .ok ((jsParagraphs text).foldl
    (fun acc p =>
      let r := processParagraph coin acc.2 p
      (acc.1 ++ r.1, r.2)) (([] : List TrainingExample), 0)).1

/- ===== App.tsx: AuthoritarianClassifier ===== -/

/-- The TensorFlow.js layers model is external to the source: it is
modelled as an oracle holding the network's forward pass from a feature
vector to the five output values.  Construction and fitting outcomes of
the library are likewise passed in as oracle parameters below. -/
structure TFModel where
  forward : List ℕ → List ℚ

/-- The classifier state that the claims observe: the optional model,
the accumulated training set, and the ready flag (Supabase is not
configured, so all persistence branches are no-ops). -/
structure Classifier where
  model : Option TFModel
  trainingData : List TrainingExample
  isModelReady : Bool

def maxSequenceLength : ℕ := 50

def initClassifier : Classifier := ⟨none, [], false⟩

/-- buildSimpleModel: the fallback architecture; on library failure the
model is cleared and the ready flag dropped. -/
def buildSimpleModel (fb : Option TFModel) (c : Classifier) : Classifier :=
  match fb with
  | some m => { c with model := some m, isModelReady := true }
  | none => { c with model := none, isModelReady := false }

/-- buildModel: install the primary architecture and set the ready
flag; on library failure fall back to buildSimpleModel.  All of this
runs synchronously before the first await of the source method. -/
def buildModel (bld fb : Option TFModel) (c : Classifier) : Classifier :=
  match bld with
  | some m => { c with model := some m, isModelReady := true }
  | none => buildSimpleModel fb c

/-- The constructor: builds the model immediately (Supabase loading is
disabled). -/
def mkClassifier (bld fb : Option TFModel) : Classifier :=
  buildModel bld fb initClassifier

/-- textToVector: lower-case, strip characters that are neither word
characters nor whitespace, split on whitespace. -/
def jsTokens (t : Text) : List Text :=
  splitOnPred isSpaceCharJs ((lowerStr t).filter (fun c => isWordChar c || isSpaceCharJs c))

/-- Bump the count of a token in an association list, keeping
first-occurrence insertion order as a JavaScript object does for string
keys.  (Purely numeric tokens would be iterated first by a JavaScript
object; no claim depends on the fill order, only on length and
membership, so insertion order is used throughout.) -/
def bump : List (Text × ℕ) → Text → List (Text × ℕ)
  | [], w => [(w, 1)]
  | (k, c) :: rest, w => if k == w then (k, c + 1) :: rest else (k, c) :: bump rest w

/-- The token-count mapping of textToVector: tokens of length at most
two are discarded; remaining tokens are counted. -/
def wordCounts (t : Text) : List (Text × ℕ) :=
  (jsTokens t).foldl (fun acc w => if 2 < w.length then bump acc w else acc) []

/-- textToVector: a zero-filled vector of fixed width receives the
token counts in iteration order; tokens beyond the width are dropped
and unused trailing positions stay zero. -/
def textToVector (t : Text) : List ℕ :=
  let counts := wordCounts t
  (counts.map Prod.snd).take maxSequenceLength ++
    List.replicate (maxSequenceLength - counts.length) 0

/-- The validation predicate of addTrainingData: truthy (non-empty)
text and a numeric label between 0 and 4 inclusive. -/
def validExample (e : TrainingExample) : Bool :=
  !e.text.isEmpty && decide ((0 : ℚ) ≤ e.label) && decide (e.label ≤ (4 : ℚ))

/-- addTrainingData: silently drop invalid entries, append the valid
ones, and return the new state together with the new total count. -/
def addTrainingData (c : Classifier) (data : List TrainingExample) : Classifier × ℕ :=
  let validData := data.filter validExample
  ({ c with trainingData := c.trainingData ++ validData },
    (c.trainingData ++ validData).length)

inductive TrainError where
  | modelNotInitialized
  | insufficientData
  | trainingFailed
deriving DecidableEq

/-- The message carried by each training failure in the source. -/
def TrainError.message : TrainError → String
  | .modelNotInitialized => "Model not initialized. Please rebuild the model."
  | .insufficientData => "Not enough training data. Need at least 10 examples."
  | .trainingFailed => "Training failed"

/-- train: rebuild the model if absent or not ready, fail if it still
cannot be constructed, fail when fewer than 10 examples are
accumulated, and otherwise fit (the library fit outcome is the oracle
fit: a fitted model on success, none for a thrown error, which triggers
the fallback rebuild before the error is surfaced). -/
def train (bld fb fit : Option TFModel) (c : Classifier) :
    Except TrainError Unit × Classifier :=
  let c1 := if c.model.isNone || !c.isModelReady then buildModel bld fb c else c
  match c1.model with
  | none => (.error .modelNotInitialized, c1)
  | some _ =>
    if c1.trainingData.length < 10 then (.error .insufficientData, c1)
    else match fit with
      | some m2 => (.ok (), { c1 with model := some m2 })
      | none => (.error .trainingFailed, buildSimpleModel fb c1)

structure Prediction where
  notAuthoritarian : ℚ
  indicator1 : ℚ
  indicator2 : ℚ
  indicator3 : ℚ
  indicator4 : ℚ
  predictedClass : ℤ
deriving DecidableEq

/-- The degenerate neutral prediction returned without a ready model
(and on any absorbed prediction fault). -/
def degeneratePrediction : Prediction := ⟨1, 0, 0, 0, 0, 0⟩

/-- Array.prototype.indexOf of the maximum: the first index attaining
the maximum, or -1 on an empty array. -/
def firstArgmaxIdx (l : List ℚ) : ℤ :=
  match l with
  | [] => -1
  | x :: xs => ((x :: xs).findIdx (fun y => y == xs.foldl max x) : ℤ)

/-- predict: without a ready model return the degenerate neutral
prediction; otherwise vectorize, run the forward pass, and read the
five probabilities (missing positions default to 0) plus the arg-max
class. -/
def predict (c : Classifier) (t : Text) : Prediction :=
  match c.model with
  | none => degeneratePrediction
  | some m =>
    if c.isModelReady then
      let out := m.forward (textToVector t)
      ⟨out.getD 0 0, out.getD 1 0, out.getD 2 0, out.getD 3 0, out.getD 4 0,
        firstArgmaxIdx out⟩
    else degeneratePrediction

/-- A concrete possible untrained network: softmax outputs are strictly
positive and sum to one, for instance the uniform distribution. -/
def uniformModel : TFModel := ⟨fun _ => [1/5, 1/5, 1/5, 1/5, 1/5]⟩

/- ===== helper lemmas ===== -/

lemma dedupFirstAux_not_mem {α : Type} [DecidableEq α] :
    ∀ (l seen : List α) (x : α), x ∈ dedupFirstAux seen l → x ∉ seen := by
  intro l
  induction l with
  | nil => intro seen x hx; simp [dedupFirstAux] at hx
  | cons a l ih =>
    intro seen x hx
    by_cases ha : a ∈ seen
    · rw [dedupFirstAux, if_pos ha] at hx
      exact ih seen x hx
    · rw [dedupFirstAux, if_neg ha] at hx
      rcases List.mem_cons.mp hx with rfl | hx2
      · exact ha
      · intro hs
        exact ih (a :: seen) x hx2 (List.mem_cons_of_mem a hs)

lemma dedupFirstAux_nodup {α : Type} [DecidableEq α] :
    ∀ (l seen : List α), (dedupFirstAux seen l).Nodup := by
  intro l
  induction l with
  | nil => intro seen; simp [dedupFirstAux]
  | cons a l ih =>
    intro seen
    by_cases ha : a ∈ seen
    · rw [dedupFirstAux, if_pos ha]
      exact ih seen
    · rw [dedupFirstAux, if_neg ha]
      refine List.nodup_cons.mpr ⟨?_, ih (a :: seen)⟩
      intro hmem
      exact dedupFirstAux_not_mem l (a :: seen) a hmem (List.mem_cons_self a seen)

lemma dedupFirst_nodup {α : Type} [DecidableEq α] (l : List α) : (dedupFirst l).Nodup :=
  dedupFirstAux_nodup l []

lemma getD_map_of_lt {α β : Type} (f : α → β) (l : List α) (i : ℕ) (d : β) (d2 : α)
    (h : i < l.length) : (l.map f).getD i d = f (l.getD i d2) := by
  induction l generalizing i with
  | nil => simp at h
  | cons a l ih =>
    cases i with
    | zero => rfl
    | succ n =>
      simp only [List.map_cons, List.getD_cons_succ]
      exact ih n (Nat.lt_of_succ_lt_succ h)

lemma getD_replicate_self {α : Type} (n i : ℕ) (d : α) :
    (List.replicate n d).getD i d = d := by
  induction n generalizing i with
  | zero => simp [List.getD]
  | succ n ih =>
    cases i with
    | zero => rfl
    | succ j =>
      simp only [List.replicate, List.getD_cons_succ]
      exact ih j

lemma getD_append_right_self {α : Type} (l l2 : List α) (d : α) :
    ∀ (n : ℕ), l.length ≤ n → (l ++ l2).getD n d = l2.getD (n - l.length) d := by
  induction l with
  | nil => intro n _; simp
  | cons a l ih =>
    intro n hn
    cases n with
    | zero => simp at hn
    | succ n =>
      simp only [List.cons_append, List.getD_cons_succ, List.length_cons,
        Nat.succ_sub_succ]
      exact ih n (Nat.le_of_succ_le_succ hn)

/- ===== claim theorems ===== -/

/-- C2, counterexample: analyzeText on the empty string does not return
4 results; the blank-input guard returns the empty list. -/
theorem analyzeText_empty_not_four : (analyzeText "".data).length ≠ 4 := by decide

/-- C2, amended: analyzeText applied to the empty string returns the
empty list of results (the guard for blank input short-circuits before
any per-indicator processing). -/
theorem analyzeText_empty_eq_nil : analyzeText "".data = [] := by decide

/-- C10, counterexample: a whitespace-only text is a non-empty input on
which analyzeText does not return one result per indicator: the trim
guard returns the empty list. -/
theorem analyzeText_blank_not_four :
    " ".data ≠ ([] : List Char) ∧ (analyzeText " ".data).length ≠ 4 := by decide

/-- C10, amended: for every input text that is non-empty after
trimming, analyzeText returns exactly one result per indicator in the
fixed order of ids 1,2,3,4, and the indicator field of the i-th result
carries the i-th static indicator (unchanged, together with its
precomputed lower-cased keywords); the static indicator list is a pure
constant of the embedding, so it is never modified. -/
theorem analyzeText_four_results (t : Text) (h : jsTrim t ≠ []) :
    (analyzeText t).length = 4 ∧
    ∀ i, i < 4 →
      ((analyzeText t).getD i defaultResult).indicator = processedIndicators.getD i blankPI ∧
      ((analyzeText t).getD i defaultResult).indicator.base = INDICATORS.getD i blankIndicator ∧
      (INDICATORS.getD i blankIndicator).id = i + 1 := by
  have ha : analyzeText t = processedIndicators.map (analyzeIndicator t) := by
    unfold analyzeText
    rw [if_neg h]
  have h4 : processedIndicators.length = 4 := by decide
  constructor
  · rw [ha, List.length_map, h4]
  · intro i hi
    have hlen : i < processedIndicators.length := by rw [h4]; exact hi
    have hI : INDICATORS.length = 4 := by decide
    have hmap : ((analyzeText t).getD i defaultResult).indicator =
        processedIndicators.getD i blankPI := by
      rw [ha, getD_map_of_lt (analyzeIndicator t) processedIndicators i defaultResult blankPI hlen]
      rfl
    refine ⟨hmap, ?_, ?_⟩
    · rw [hmap]
      unfold processedIndicators
      rw [getD_map_of_lt _ INDICATORS i blankPI blankIndicator (by rw [hI]; exact hi)]
    · interval_cases i <;> decide

/-- C10, witness for the amended theorem at a concrete input. -/
theorem analyzeText_four_results_witness :
    jsTrim "war.".data ≠ [] ∧ (analyzeText "war.".data).length = 4 :=
  ⟨by decide, (analyzeText_four_results "war.".data (by decide)).1⟩

/-- C3, counterexample: on the text "force Force" the scorer's third
result lists both casings of the same word, so the matches list does
contain two entries that are equal when lower-cased. -/
theorem matches_ci_duplicate :
    ((analyzeText "force Force".data).getD 2 defaultResult).«matches» =
      ["force".data, "Force".data] ∧
    ¬ ((((analyzeText "force Force".data).getD 2 defaultResult).«matches».map lowerStr).Nodup) := by
  decide

/-- C3, amended: for every text and every returned result, the matches
list contains each distinct matched string at most once under exact
(case-sensitive) comparison; distinct casings of one word may appear as
separate entries. -/
theorem matches_nodup (t : Text) (r : AnalysisResult) (hr : r ∈ analyzeText t) :
    r.«matches».Nodup := by
  unfold analyzeText at hr
  by_cases h : jsTrim t = []
  · rw [if_pos h] at hr
    simp at hr
  · rw [if_neg h] at hr
    obtain ⟨pi, _, rfl⟩ := List.mem_map.mp hr
    exact dedupFirst_nodup _

/-- C3, witness for the amended theorem at a concrete input. -/
theorem matches_nodup_witness :
    ((analyzeText "war.".data).getD 2 defaultResult).«matches».Nodup :=
  matches_nodup "war.".data _ (of_decide_eq_true (by with_unfolding_all rfl))

/-- C4, counterexample: on "force Force" the third indicator's score is
4 (two exactly-distinct matches), not the value 2 that the claimed
case-insensitive count of distinct matches would give. -/
theorem score_not_ci_formula :
    ((analyzeText "force Force".data).getD 2 defaultResult).score = 4 ∧
    ciDistinctCount
      (collectMatches (processedIndicators.getD 2 blankPI) "force Force".data) = 1 ∧
    ((analyzeText "force Force".data).getD 2 defaultResult).score ≠
      scoreFormula
        (ciDistinctCount
          (collectMatches (processedIndicators.getD 2 blankPI) "force Force".data))
        (analyzeSentiment "force Force".data) :=
  of_decide_eq_true (by with_unfolding_all rfl)

/-- C4, amended: for every text passing the blank guard and every
indicator, the score equals min(10, n*2), plus 1 (clamped again to 10)
exactly when n is positive and the sentiment of the whole text is
strictly below -0.2, where n is the number of exactly-distinct
(case-sensitive) matched strings; and every returned score lies in
[0,10]. -/
theorem score_eq_formula (t : Text) (h : jsTrim t ≠ []) :
    (∀ r ∈ analyzeText t, r.score ≤ 10) ∧
    (∀ i, i < 4 →
      ((analyzeText t).getD i defaultResult).score =
        scoreFormula
          (dedupFirst (collectMatches (processedIndicators.getD i blankPI) t)).length
          (analyzeSentiment t)) := by
  have ha : analyzeText t = processedIndicators.map (analyzeIndicator t) := by
    unfold analyzeText
    rw [if_neg h]
  constructor
  · intro r hr
    rw [ha] at hr
    obtain ⟨pi, _, rfl⟩ := List.mem_map.mp hr
    show (analyzeIndicator t pi).score ≤ 10
    unfold analyzeIndicator
    dsimp only
    split
    · exact Nat.min_le_left _ _
    · exact Nat.min_le_left _ _
  · intro i hi
    have h4 : processedIndicators.length = 4 := by decide
    have hlen : i < processedIndicators.length := by rw [h4]; exact hi
    rw [ha, getD_map_of_lt (analyzeIndicator t) processedIndicators i defaultResult blankPI hlen]
    rfl

/-- C4, witness for the amended theorem at a concrete input. -/
theorem score_eq_formula_witness :
    jsTrim "war.".data ≠ [] ∧
    ((analyzeText "war.".data).getD 2 defaultResult).score =
      scoreFormula
        (dedupFirst (collectMatches (processedIndicators.getD 2 blankPI) "war.".data)).length
        (analyzeSentiment "war.".data) :=
  ⟨by decide, (score_eq_formula "war.".data (by decide)).2 2 (by omega)⟩

/-- C7: for every input text the feature vector has length exactly 50,
every entry is a non-negative integer (counts live in the naturals),
and every position at or beyond the number of counted tokens is 0. -/
theorem textToVector_shape (t : Text) :
    (textToVector t).length = 50 ∧
    (∀ x ∈ textToVector t, 0 ≤ x) ∧
    (∀ i, (wordCounts t).length ≤ i → (textToVector t).getD i 0 = 0) := by
  refine ⟨?_, fun x _ => Nat.zero_le x, ?_⟩
  · unfold textToVector maxSequenceLength
    rw [List.length_append, List.length_take, List.length_replicate, List.length_map]
    omega
  · intro i hi
    unfold textToVector maxSequenceLength
    set counts := wordCounts t with hc
    have hta : ((counts.map Prod.snd).take 50).length = min 50 counts.length := by
      rw [List.length_take, List.length_map]
    have hle : ((counts.map Prod.snd).take 50).length ≤ i := by
      rw [hta]; omega
    rw [getD_append_right_self _ _ _ i hle]
    exact getD_replicate_self _ _ _

/-- C7, witness for the quantified parts at a concrete input. -/
theorem textToVector_shape_witness :
    (textToVector "".data).length = 50 ∧ (textToVector "".data).getD 7 0 = 0 :=
  ⟨(textToVector_shape "".data).1, (textToVector_shape "".data).2.2 7 (by decide)⟩

/-- C8: addTrainingData appends any example whose text is non-empty and
whose numeric label lies in the closed interval from 0 to 4 — the
validation checks only the range, not integrality, so non-integer
labels such as 5/2 are accepted — and returns the new total count. -/
theorem addTrainingData_accepts_range (c : Classifier) (e : TrainingExample)
    (h1 : e.text ≠ []) (h2 : 0 ≤ e.label) (h3 : e.label ≤ 4) :
    (addTrainingData c [e]).1.trainingData = c.trainingData ++ [e] ∧
    (addTrainingData c [e]).2 = c.trainingData.length + 1 := by
  have hv : validExample e = true := by
    unfold validExample
    have he : e.text.isEmpty = false := by
      cases ht : e.text with
      | nil => exact absurd ht h1
      | cons a l => rfl
    rw [he]
    simp [h2, h3]
  constructor
  · simp [addTrainingData, List.filter, hv]
  · simp [addTrainingData, List.filter, hv]

/-- C8, witness: a non-integer label of 5/2 with non-empty text is
appended. -/
theorem addTrainingData_accepts_range_witness :
    (⟨"x".data, (5/2 : ℚ)⟩ : TrainingExample).text ≠ [] ∧
    (addTrainingData initClassifier [⟨"x".data, (5/2 : ℚ)⟩]).1.trainingData =
      initClassifier.trainingData ++ [⟨"x".data, (5/2 : ℚ)⟩] :=
  ⟨by decide,
    (addTrainingData_accepts_range initClassifier ⟨"x".data, (5/2 : ℚ)⟩ (by decide)
      (of_decide_eq_true (by with_unfolding_all rfl))
      (of_decide_eq_true (by with_unfolding_all rfl))).1⟩

/-- C5: with a ready model present, train on fewer than 10 accumulated
examples fails with the insufficient-data error and returns the
classifier state unchanged; with 10 or more examples it proceeds past
the size check (its outcome is then the fit outcome, never the
insufficient-data error). -/
theorem train_size_check (bld fb fit : Option TFModel) (c : Classifier) (m : TFModel)
    (hm : c.model = some m) (hr : c.isModelReady = true) :
    (c.trainingData.length < 10 →
      train bld fb fit c = (.error .insufficientData, c)) ∧
    (10 ≤ c.trainingData.length →
      (train bld fb fit c).1 ≠ .error .insufficientData) := by
  constructor
  · intro hlen
    simp [train, hm, hr, hlen]
  · intro hlen
    simp [train, hm, hr, Nat.not_lt.mpr hlen]
    cases fit <;> simp

/-- C5, witness: with 9 accumulated examples the insufficient-data
error is returned and the state is unchanged; with 10 the check is
passed. -/
theorem train_size_check_witness :
    train (some uniformModel) none none
        ⟨some uniformModel, List.replicate 9 ⟨"x".data, 0⟩, true⟩ =
      (.error .insufficientData,
        ⟨some uniformModel, List.replicate 9 ⟨"x".data, 0⟩, true⟩) ∧
    (train (some uniformModel) none none
        ⟨some uniformModel, List.replicate 10 ⟨"x".data, 0⟩, true⟩).1 ≠
      .error .insufficientData :=
  ⟨(train_size_check (some uniformModel) none none _ uniformModel rfl rfl).1 (by decide),
    (train_size_check (some uniformModel) none none _ uniformModel rfl rfl).2 (by decide)⟩

/-- C9: the labeler skips every paragraph whose trimmed length is at
most 50 characters entirely: no sentence of such a paragraph produces
an example and no randomness is consumed, regardless of the sentences
it contains. -/
theorem short_paragraph_skipped (coin : ℕ → Bool) (k : ℕ) (p : Text)
    (h : (jsTrim p).length ≤ 50) :
    processParagraph coin k p = ([], k) := by
  unfold processParagraph
  rw [if_neg (by omega)]

/-- C9, witness: a 40-character paragraph consisting of one keyword
sentence of more than 20 characters still yields no example. -/
theorem short_paragraph_skipped_witness :
    (jsTrim "The coup was violent and blood was shed.".data).length ≤ 50 ∧
    processParagraph (fun _ => true) 0 "The coup was violent and blood was shed.".data
      = ([], 0) :=
  ⟨by decide, short_paragraph_skipped (fun _ => true) 0 _ (by decide)⟩

/-- C6: a retained sentence (trimmed length at least 20) whose earliest
matching indicator in the fixed scan order is indicator i (keywords
checked as case-insensitive substrings in declaration order) is labeled
with id i+1: the scan stops at the first match, so no later indicator
can override the label; and sentences of trimmed length under 20 are
discarded. -/
theorem labeler_first_match_wins (coin : ℕ → Bool) (k : ℕ) (rest : List Text)
    (s : Text) (i : ℕ) (hlen : 20 ≤ (jsTrim s).length) (hi : i < 4)
    (hhit : indicatorHit (INDICATORS.getD i blankIndicator) s = true)
    (hprev : ∀ j, j < i → indicatorHit (INDICATORS.getD j blankIndicator) s = false) :
    firstIndicatorId s = i + 1 ∧
    (sentencesStep coin (s :: rest) k).1.head? = some ⟨jsTrim s, ((i + 1 : ℕ) : ℚ)⟩ ∧
    (∀ s2, (jsTrim s2).length < 20 →
      sentencesStep coin (s2 :: rest) k = sentencesStep coin rest k) := by
  have hrange : List.range 4 = [0, 1, 2, 3] := by decide
  have hfirst : firstIndicatorId s = i + 1 := by
    unfold firstIndicatorId
    rw [hrange]
    simp only [List.getD_eq_getElem?_getD] at hhit hprev
    interval_cases i
    · simp [List.find?, hhit]
    · have h0 := hprev 0 (by omega)
      simp [List.find?, h0, hhit]
    · have h0 := hprev 0 (by omega)
      have h1 := hprev 1 (by omega)
      simp [List.find?, h0, h1, hhit]
    · have h0 := hprev 0 (by omega)
      have h1 := hprev 1 (by omega)
      have h2 := hprev 2 (by omega)
      simp [List.find?, h0, h1, h2, hhit]
  have hn : ¬ (jsTrim s).length < 20 := Nat.not_lt.mpr hlen
  refine ⟨hfirst, ?_, ?_⟩
  · simp only [sentencesStep, if_neg hn, hfirst]
    simp
  · intro s2 h2
    simp only [sentencesStep, if_pos h2]

/-- C6, witness: a 39-character sentence containing keywords of
indicator 1 only is labeled 1. -/
theorem labeler_first_match_wins_witness :
    20 ≤ (jsTrim "They reject the election results today.".data).length ∧
    (sentencesStep (fun _ => false)
        ["They reject the election results today.".data] 0).1.head? =
      some ⟨jsTrim "They reject the election results today.".data, ((1 : ℕ) : ℚ)⟩ :=
  ⟨by decide,
    (labeler_first_match_wins (fun _ => false) 0 []
      "They reject the election results today.".data 0 (by decide) (by omega)
      (by decide) (fun j hj => absurd hj (Nat.not_lt_zero j))).2.1⟩

/-- C1, counterexample: after a construction whose primary build
succeeds (here with a possible softmax forward pass, the uniform
distribution) and before any training, predict does not return the
degenerate neutral Prediction. -/
theorem predict_before_train_counterexample :
    predict (mkClassifier (some uniformModel) none) "Any new text".data ≠
      degeneratePrediction :=
  of_decide_eq_true (by with_unfolding_all rfl)

/-- C1, amended: predict returns the degenerate neutral Prediction only
while no ready model exists (for instance when both builds failed); the
constructor itself builds the model and marks it ready synchronously,
so a predict before any train runs the untrained network's forward pass
and differs from the degenerate Prediction whenever the output assigns
a non-zero value to an indicator class (as every softmax output
does). -/
theorem predict_before_train_runs_forward (m : TFModel) (fb : Option TFModel) (t : Text)
    (h : (m.forward (textToVector t)).getD 1 0 ≠ 0) :
    (mkClassifier (some m) fb).isModelReady = true ∧
    predict (mkClassifier (some m) fb) t ≠ degeneratePrediction ∧
    predict (mkClassifier none none) t = degeneratePrediction := by
  refine ⟨rfl, ?_, rfl⟩
  intro heq
  apply h
  have h2 := congrArg Prediction.indicator1 heq
  simpa [predict, mkClassifier, buildModel, initClassifier, degeneratePrediction] using h2

/-- C1, witness for the amended theorem at a concrete model and text. -/
theorem predict_before_train_runs_forward_witness :
    (uniformModel.forward (textToVector "Any new text".data)).getD 1 0 ≠ 0 ∧
    (mkClassifier (some uniformModel) none).isModelReady = true :=
  ⟨of_decide_eq_true (by with_unfolding_all rfl),
    (predict_before_train_runs_forward uniformModel none "Any new text".data
      (of_decide_eq_true (by with_unfolding_all rfl))).1⟩

end DemocracyAnalyzer
